import Mathlib

/-!
Shallow embedding of `src/app.py` of the Tim-Hortons-Service repository:
a Flask survey app that serves a QR code linking to a feedback form,
classifies each free-text answer as POSITIVE/NEGATIVE via a remote
Hugging Face inference endpoint, tallies the results per category in an
in-memory dictionary, and shows the tallies on an aggregate page.
-/

namespace TimHortons

/-! ## JSON values

`response.json()` decodes the remote model's body into Python values.
Scores (Python floats) are modelled as rationals; their ordering is what
`max(..., key=...)` uses and rationals order floats faithfully.  -/

inductive JVal where
  | jstr (s : String)
  | jnum (q : Rat)
  | jlist (xs : List JVal)
  | jdict (fields : List (String × JVal))
  | jbool (b : Bool)
  | jnull

/-- First-match association-list lookup, the reading side of a Python dict
whose keys are unique. -/
def lookupA {α : Type} : List (String × α) → String → Option α
  | [], _ => none
  | (k, v) :: rest, key => if k = key then some v else lookupA rest key

/-- Score lookup `x["score"]` as used in the `key=lambda x: x["score"]` of `max` and in
`score = ...`: succeeds only when `x` is a dict carrying a numeric
`"score"`.  Any other shape raises in Python (`TypeError`/`KeyError`, or a
`ValueError` later when a non-number meets the `:.4f` format), and every
such raise lands in the surrounding `except`; `none` models the raise. -/
def getScore : JVal → Option Rat
  | .jdict fields =>
      match lookupA fields "score" with
      | some (.jnum q) => some q
      | _ => none
  | _ => none

/-- Label lookup `x["label"]`: dict lookup, `none` models the `KeyError`/`TypeError`. -/
def getLabelField : JVal → Option JVal
  | .jdict fields => lookupA fields "label"
  | _ => none

/-- Python `str()` of a decoded JSON value, as interpolated by the f-string
`f"\x7blabel\x7d (score: ...)"`.  The exact rendering of non-string values
(Python repr) is abstracted; no claim depends on it. -/
def jvalStr : JVal → String
  | .jstr s => s
  | .jnum q => toString q
  | .jlist _ => "<list>"
  | .jdict _ => "<dict>"
  | .jbool b => toString b
  | .jnull => "None"

/-- The `\x7bscore:.4f\x7d` fixed-point rendering of the score.  The exact
digits are abstracted (Python float formatting); no claim depends on them. -/
def formatScore (q : Rat) : String := toString q

/-- Loop of Python's `max(predictions, key=lambda x: x["score"])`: keeps the
first element whose key is maximal, replacing the current best only on a
strictly greater key; a prediction without a numeric score raises (`none`). -/
def pyMaxGo : List JVal → JVal → Rat → Option JVal
  | [], best, _ => some best
  | x :: rest, best, sb =>
      match getScore x with
      | none => none
      | some sx => if sb < sx then pyMaxGo rest x sx else pyMaxGo rest best sb

/-- Python `max(predictions, key=lambda x: x["score"])`; `max` of an empty list
raises `ValueError` (`none`). -/
def pyMax (predictions : List JVal) : Option JVal :=
  match predictions with
  | [] => none
  | x :: rest =>
      match getScore x with
      | none => none
      | some sx => pyMaxGo rest x sx

/-- The body of `analyze_sentiment` after a successful `response.json()`:
the nested-list branch, the flat-list-of-dicts branch, and the
`"Unexpected response format"` fallthrough.  A raise inside either branch
is caught by the `except` and yields `"Error analyzing sentiment"`. -/
def analyzeResult (result : JVal) : String :=
  match result with
  | .jlist (first :: _) =>
      match first with
      | .jlist predictions =>
          -- result is a nested list [[...]]: take the best-scored prediction
          match pyMax predictions with
          | none => "Error analyzing sentiment"
          | some best =>
              match getLabelField best with
              | none => "Error analyzing sentiment"
              | some lab =>
                  match getScore best with
                  | none => "Error analyzing sentiment"
                  | some sc => jvalStr lab ++ " (score: " ++ formatScore sc ++ ")"
      | .jdict fields =>
          -- result is a simple list of dicts: read result[0] directly
          match lookupA fields "label" with
          | none => "Error analyzing sentiment"
          | some lab =>
              match lookupA fields "score" with
              | some (.jnum sc) => jvalStr lab ++ " (score: " ++ formatScore sc ++ ")"
              | _ => "Error analyzing sentiment"
      | _ => "Unexpected response format"
  | _ => "Unexpected response format"

/-- The observable part of the `requests` response object: whether
`raise_for_status()` passes (2xx), and the decoded body (`none` when
`.json()` raises on a non-JSON body). -/
structure HttpResponse where
  ok : Bool
  body : Option JVal

/-- Outcome of the one `requests.post` call: either the call itself raises
(network failure — the call sits on the line before the `try`), or a
response object comes back. -/
inductive PostOutcome where
  | raises
  | response (r : HttpResponse)

/-- The function `analyze_sentiment(text)`, parametrised by the network `net` giving the
outcome of posting each payload text.  `none` models an exception
propagating out of the function: that happens exactly when `requests.post`
itself raises, since the `try` only begins on the following line. -/
def analyze_sentiment (net : String → PostOutcome) (text : String) : Option String :=
  match net text with
  | .raises => none
  | .response r =>
      if r.ok then
        match r.body with
        | none => some "Error analyzing sentiment"   -- response.json() raised
        | some result => some (analyzeResult result)
      else
        some "Error analyzing sentiment"             -- raise_for_status() raised

/-- Python's `str.startswith`, written structurally on the character lists
so that proofs can evaluate it on concrete strings. -/
def pyStartsWith (s p : String) : Bool := p.data.isPrefixOf s.data

/-- The function `get_label_only(text)`: keep only the label prefix of the full result,
falling back to `"NEGATIVE"` on errors or unexpected formats.  An exception
from `analyze_sentiment` (the `requests.post` line) propagates unchanged. -/
def get_label_only (net : String → PostOutcome) (text : String) : Option String :=
  (analyze_sentiment net text).map fun full_result =>
    if pyStartsWith full_result "POSITIVE" then "POSITIVE"
    else if pyStartsWith full_result "NEGATIVE" then "NEGATIVE"
    else "NEGATIVE"

/-! ## QR code generation -/

/-- The base64 alphabet, as a character list. -/
def b64Alphabet : List Char :=
  "ABCDEFGHIJKLMNOPQRSTUVWXYZabcdefghijklmnopqrstuvwxyz0123456789+/".data

/-- Character of the base64 alphabet at a 6-bit index. -/
def b64Char (n : Nat) : Char := b64Alphabet.getD (n % 64) 'A'

/-- RFC 4648 base64 of a byte sequence (bytes as naturals below 256), the
`base64.b64encode(...).decode()` step of `generate_qr_code_local`. -/
def base64encode : List Nat → String
  | [] => ""
  | [a] =>
      String.mk [b64Char (a / 4), b64Char (a % 4 * 16)] ++ "=="
  | [a, b] =>
      String.mk [b64Char (a / 4), b64Char (a % 4 * 16 + b / 16), b64Char (b % 16 * 4)] ++ "="
  | a :: b :: c :: rest =>
      String.mk [b64Char (a / 4), b64Char (a % 4 * 16 + b / 16),
                 b64Char (b % 16 * 4 + c / 64), b64Char (c % 64)] ++ base64encode rest

/-- The function `generate_qr_code_local(text)`, parametrised by the third-party encoder
`png : String → List Nat` giving the PNG bytes that `qrcode.make(text)`
followed by `img.save(buffer, format="PNG")` leaves in the buffer: the
function base64-encodes those bytes and prepends the data-URI header. -/
def generate_qr_code_local (png : String → List Nat) (text : String) : String :=
  let base64_img := base64encode (png text)
  "data:image/png;base64," ++ base64_img

/-! ## Routes: home page -/

/-- What `render_template('index.html', ...)` receives. -/
structure IndexPage where
  qr_image : String
  survey_url : String

/-- The hard-coded survey URL of the `index` handler. -/
def surveyUrl : String := "http://10.10.4.21:5000/survey"

/-- The `index` handler (`GET /`): builds the QR code for the survey URL and
renders it; it never touches `feedback_storage`. -/
def index (png : String → List Nat) : IndexPage :=
  { qr_image := generate_qr_code_local png surveyUrl, survey_url := surveyUrl }

/-! ## The in-memory store -/

/-- The store `feedback_storage` is a Python dict of dicts; modelled as a first-match
association list so that key presence is a real invariant, not a typing
artefact. -/
abbrev Store : Type := List (String × List (String × Nat))

/-- The initial `feedback_storage` literal. -/
def feedback_storage : Store :=
  [("cleanliness", [("POSITIVE", 0), ("NEGATIVE", 0)]),
   ("time", [("POSITIVE", 0), ("NEGATIVE", 0)]),
   ("courtesy", [("POSITIVE", 0), ("NEGATIVE", 0)]),
   ("food_quality", [("POSITIVE", 0), ("NEGATIVE", 0)])]

/-- Inner update of `feedback_storage[category][label] += 1`: bump the first
entry for `lab`.  (Python raises `KeyError` on an absent key; the program
only ever uses keys present in the literal, where the two coincide, so an
absent key is modelled as a no-op.) -/
def bumpLabel : List (String × Nat) → String → List (String × Nat)
  | [], _ => []
  | (l, n) :: rest, lab =>
      if l = lab then (l, n + 1) :: rest else (l, n) :: bumpLabel rest lab

/-- Update `feedback_storage[category][label] += 1` on the outer dict. -/
def incr : Store → String → String → Store
  | [], _, _ => []
  | (c, m) :: rest, cat, lab =>
      if c = cat then (c, bumpLabel m lab) :: rest else (c, m) :: incr rest cat lab

/-- Read a tally: `feedback_storage[cat][lab]`, `none` when a key is absent. -/
def getCount (st : Store) (cat lab : String) : Option Nat :=
  match lookupA st cat with
  | some m => lookupA m lab
  | none => none

/-! ## Routes: survey form -/

/-- Truthiness of `text.strip()` in `if cleanliness_text.strip():` etc.—the
text has a non-whitespace character.  (Lean's `Char.isWhitespace` covers
space, tab, CR and LF; Python additionally strips `\x0b`, `\x0c` and
Unicode spaces, a divergence no claim depends on.) -/
def hasFeedback (text : String) : Bool := text.data.any fun c => !c.isWhitespace

/-- The four `request.form.get(..., '')` fields of a POST submission. -/
structure Form where
  cleanliness : String
  time : String
  courtesy : String
  food_quality : String

/-- What `render_template('result.html', ...)` receives. -/
structure Rendered where
  cleanliness : String
  cleanliness_label : String
  time : String
  time_label : String
  courtesy : String
  courtesy_label : String
  food_quality : String
  food_label : String

/-- One `if <text>.strip(): label = get_label_only(<text>); ...; += 1` block
of the POST branch: returns the updated store and `some label` (the label
variable the template receives, `"No feedback"` when the field is skipped),
or the store untouched and `none` when `get_label_only` raised — the raise
happens before the `+= 1` line, so the increment does not occur. -/
def processField (st : Store) (cat : String) (text : String)
    (net : String → PostOutcome) : Store × Option String :=
  if hasFeedback text then
    match get_label_only net text with
    | none => (st, none)
    | some label => (incr st cat label, some label)
  else
    (st, some "No feedback")

/-- The POST branch of the `survey` handler: process the four fields in
source order, aborting (HTTP 500, nothing rendered, increments so far kept)
as soon as a field's classification raises. -/
def survey_post (f : Form) (net : String → PostOutcome) (st : Store) :
    Store × Option Rendered :=
  match processField st "cleanliness" f.cleanliness net with
  | (st1, none) => (st1, none)
  | (st1, some cleanliness_label) =>
    match processField st1 "time" f.time net with
    | (st2, none) => (st2, none)
    | (st2, some time_label) =>
      match processField st2 "courtesy" f.courtesy net with
      | (st3, none) => (st3, none)
      | (st3, some courtesy_label) =>
        match processField st3 "food_quality" f.food_quality net with
        | (st4, none) => (st4, none)
        | (st4, some food_label) =>
          (st4, some { cleanliness := f.cleanliness, cleanliness_label := cleanliness_label,
                       time := f.time, time_label := time_label,
                       courtesy := f.courtesy, courtesy_label := courtesy_label,
                       food_quality := f.food_quality, food_label := food_label })

/-! ## Routes: aggregate view -/

/-- What `render_template('overall.html', data=feedback_storage)` receives. -/
structure OverallPage where
  data : Store

/-- The `overall` handler (`GET /overall`): renders the store as-is. -/
def overall (st : Store) : OverallPage := { data := st }

/-! ## The request-level state machine -/

/-- One incoming request to any of the three routes.  A POST carries the
submitted form and the network behaviour `net` in force during handling. -/
inductive Request where
  | getIndex
  | getSurvey
  | getOverall
  | postSurvey (f : Form) (net : String → PostOutcome)

/-- Effect of a request on `feedback_storage`: only the POST branch of
`survey` writes to it; `index`, the GET branch of `survey`, and `overall`
never mention it except (for `overall`) to read it. -/
def step (req : Request) (st : Store) : Store :=
  match req with
  | .getIndex => st
  | .getSurvey => st
  | .getOverall => st
  | .postSurvey f net => (survey_post f net st).1

/-- States of `feedback_storage` reachable from the module-level literal by
any sequence of requests. -/
inductive Reachable : Store → Prop where
  | init : Reachable feedback_storage
  | step (req : Request) (st : Store) : Reachable st → Reachable (step req st)

/-- The four fixed categories, in the order of the storage literal. -/
def categories : List String := ["cleanliness", "time", "courtesy", "food_quality"]

/-- The two sentiment labels, in the order of the storage literal. -/
def sentimentLabels : List String := ["POSITIVE", "NEGATIVE"]

/-- The store shape the spec promises: exactly the four category keys, each
holding exactly the two label keys. -/
def wellFormed (st : Store) : Prop :=
  st.map Prod.fst = categories ∧ ∀ p ∈ st, p.2.map Prod.fst = sentimentLabels

/-! ## Lemmas about the store operations -/

theorem bumpLabel_keys (m : List (String × Nat)) (lab : String) :
    (bumpLabel m lab).map Prod.fst = m.map Prod.fst := by
  induction m with
  | nil => rfl
  | cons p rest ih =>
      obtain ⟨l, n⟩ := p
      by_cases h : l = lab <;> simp [bumpLabel, h, ih]

theorem incr_keys (st : Store) (cat lab : String) :
    (incr st cat lab).map Prod.fst = st.map Prod.fst := by
  induction st with
  | nil => rfl
  | cons p rest ih =>
      obtain ⟨c, m⟩ := p
      by_cases h : c = cat <;> simp [incr, h, ih]

theorem lookupA_bumpLabel_self (m : List (String × Nat)) (lab : String) :
    lookupA (bumpLabel m lab) lab = (lookupA m lab).map (· + 1) := by
  induction m with
  | nil => rfl
  | cons p rest ih =>
      obtain ⟨l, n⟩ := p
      by_cases h : l = lab
      · subst h; simp [bumpLabel, lookupA]
      · simp [bumpLabel, lookupA, h, ih]

theorem lookupA_bumpLabel_ne (m : List (String × Nat)) (lab l' : String) (h : l' ≠ lab) :
    lookupA (bumpLabel m lab) l' = lookupA m l' := by
  induction m with
  | nil => rfl
  | cons p rest ih =>
      obtain ⟨l, n⟩ := p
      by_cases hl : l = lab
      · subst hl; simp [bumpLabel, lookupA, Ne.symm h]
      · by_cases hl' : l = l' <;> simp [bumpLabel, lookupA, h, hl, hl', ih]

theorem getCount_incr_self (st : Store) (cat lab : String) :
    getCount (incr st cat lab) cat lab = (getCount st cat lab).map (· + 1) := by
  induction st with
  | nil => rfl
  | cons p rest ih =>
      obtain ⟨c, m⟩ := p
      by_cases h : c = cat
      · subst h; simp [incr, getCount, lookupA, lookupA_bumpLabel_self]
      · simpa [incr, getCount, lookupA, h] using ih

theorem getCount_incr_ne (st : Store) (cat lab c' l' : String)
    (h : ¬(c' = cat ∧ l' = lab)) :
    getCount (incr st cat lab) c' l' = getCount st c' l' := by
  induction st with
  | nil => rfl
  | cons p rest ih =>
      obtain ⟨c, m⟩ := p
      by_cases hc : c = cat
      · subst hc
        by_cases hc' : c = c'
        · subst hc'
          have hl : l' ≠ lab := fun hl => h ⟨rfl, hl⟩
          simp [incr, getCount, lookupA, lookupA_bumpLabel_ne m lab l' hl]
        · simp [incr, getCount, lookupA, hc']
      · by_cases hc' : c = c'
        · subst hc'
          simp [incr, getCount, lookupA, hc]
        · simpa [incr, getCount, lookupA, hc, hc'] using ih

/-- Pointwise non-decrease of every tally present in the store. -/
def storeLe (st st' : Store) : Prop :=
  ∀ c l n, getCount st c l = some n → ∃ m, getCount st' c l = some m ∧ n ≤ m

theorem storeLe_refl (st : Store) : storeLe st st :=
  fun _ _ n h => ⟨n, h, Nat.le_refl n⟩

theorem storeLe_trans {a b c : Store} (h1 : storeLe a b) (h2 : storeLe b c) :
    storeLe a c := by
  intro cc l n h
  obtain ⟨m, hm, hnm⟩ := h1 cc l n h
  obtain ⟨k, hk, hmk⟩ := h2 cc l m hm
  exact ⟨k, hk, Nat.le_trans hnm hmk⟩

theorem storeLe_incr (st : Store) (cat lab : String) : storeLe st (incr st cat lab) := by
  intro c l n h
  by_cases hcl : c = cat ∧ l = lab
  · obtain ⟨hc, hl⟩ := hcl
    subst hc; subst hl
    refine ⟨n + 1, ?_, Nat.le_succ n⟩
    rw [getCount_incr_self, h]
    rfl
  · exact ⟨n, by rw [getCount_incr_ne st cat lab c l hcl]; exact h, Nat.le_refl n⟩

/-- Case analysis of one field-processing block of the POST branch. -/
theorem processField_cases (st : Store) (cat text : String) (net : String → PostOutcome) :
    (hasFeedback text = false ∧ processField st cat text net = (st, some "No feedback")) ∨
    (hasFeedback text = true ∧ get_label_only net text = none ∧
      processField st cat text net = (st, none)) ∨
    (∃ lab, hasFeedback text = true ∧ get_label_only net text = some lab ∧
      processField st cat text net = (incr st cat lab, some lab)) := by
  cases h : hasFeedback text with
  | false => exact Or.inl ⟨rfl, by simp [processField, h]⟩
  | true =>
      cases hg : get_label_only net text with
      | none => exact Or.inr (Or.inl ⟨rfl, rfl, by simp [processField, h, hg]⟩)
      | some lab => exact Or.inr (Or.inr ⟨lab, rfl, rfl, by simp [processField, h, hg]⟩)

/-- Any reflexive relation closed under `incr` relates a store to the store
a field-processing block leaves behind. -/
theorem processField_fst_closure (st : Store) (cat text : String)
    (net : String → PostOutcome) (P : Store → Store → Prop)
    (hrefl : ∀ s, P s s) (hincr : ∀ s c l, P s (incr s c l)) :
    P st (processField st cat text net).1 := by
  rcases processField_cases st cat text net with ⟨_, he⟩ | ⟨_, _, he⟩ | ⟨lab, _, _, he⟩ <;>
    rw [he]
  · exact hrefl st
  · exact hrefl st
  · exact hincr st cat lab

/-- Any reflexive, transitive relation closed under `incr` relates a store
to the store the whole POST branch leaves behind. -/
theorem survey_post_fst_closure (f : Form) (net : String → PostOutcome) (st : Store)
    (P : Store → Store → Prop) (hrefl : ∀ s, P s s)
    (htrans : ∀ a b c, P a b → P b c → P a c)
    (hincr : ∀ s c l, P s (incr s c l)) :
    P st (survey_post f net st).1 := by
  unfold survey_post
  rcases h1 : processField st "cleanliness" f.cleanliness net with ⟨st1, r1⟩
  have p1 : P st st1 := by
    have := processField_fst_closure st "cleanliness" f.cleanliness net P hrefl hincr
    rwa [h1] at this
  cases r1 with
  | none => exact p1
  | some cl =>
    dsimp only
    rcases h2 : processField st1 "time" f.time net with ⟨st2, r2⟩
    have p2 : P st st2 := by
      have := processField_fst_closure st1 "time" f.time net P hrefl hincr
      rw [h2] at this
      exact htrans _ _ _ p1 this
    cases r2 with
    | none => exact p2
    | some tl =>
      dsimp only
      rcases h3 : processField st2 "courtesy" f.courtesy net with ⟨st3, r3⟩
      have p3 : P st st3 := by
        have := processField_fst_closure st2 "courtesy" f.courtesy net P hrefl hincr
        rw [h3] at this
        exact htrans _ _ _ p2 this
      cases r3 with
      | none => exact p3
      | some col =>
        dsimp only
        rcases h4 : processField st3 "food_quality" f.food_quality net with ⟨st4, r4⟩
        have p4 : P st st4 := by
          have := processField_fst_closure st3 "food_quality" f.food_quality net P hrefl hincr
          rw [h4] at this
          exact htrans _ _ _ p3 this
        cases r4 with
        | none => exact p4
        | some fl => exact p4

theorem storeLe_step (req : Request) (st : Store) : storeLe st (step req st) := by
  cases req with
  | getIndex => exact storeLe_refl st
  | getSurvey => exact storeLe_refl st
  | getOverall => exact storeLe_refl st
  | postSurvey f net =>
      exact survey_post_fst_closure f net st storeLe storeLe_refl
        (fun _ _ _ => storeLe_trans) storeLe_incr

/-! ## Preservation of the store shape -/

theorem mem_incr {p : String × List (String × Nat)} {st : Store} {cat lab : String}
    (hp : p ∈ incr st cat lab) :
    p ∈ st ∨ ∃ m, (p.1, m) ∈ st ∧ p.2 = bumpLabel m lab := by
  induction st with
  | nil => simp [incr] at hp
  | cons q rest ih =>
      obtain ⟨c, m⟩ := q
      by_cases h : c = cat
      · subst h
        have hp' : p = (c, bumpLabel m lab) ∨ p ∈ rest := by simpa [incr] using hp
        rcases hp' with hp2 | hp2
        · subst hp2
          exact Or.inr ⟨m, List.mem_cons_self _ _, rfl⟩
        · exact Or.inl (List.mem_cons_of_mem _ hp2)
      · have hp' : p = (c, m) ∨ p ∈ incr rest cat lab := by simpa [incr, h] using hp
        rcases hp' with hp2 | hp2
        · subst hp2
          exact Or.inl (List.mem_cons_self _ _)
        · rcases ih hp2 with h1 | ⟨m', h2, h3⟩
          · exact Or.inl (List.mem_cons_of_mem _ h1)
          · exact Or.inr ⟨m', List.mem_cons_of_mem _ h2, h3⟩

theorem wellFormed_incr {st : Store} (cat lab : String) (h : wellFormed st) :
    wellFormed (incr st cat lab) := by
  obtain ⟨hk, hin⟩ := h
  refine ⟨by rw [incr_keys]; exact hk, ?_⟩
  intro p hp
  rcases mem_incr hp with h1 | ⟨m, hm, hbump⟩
  · exact hin p h1
  · rw [hbump, bumpLabel_keys]
    exact hin (p.1, m) hm

theorem wellFormed_step (req : Request) {st : Store} (h : wellFormed st) :
    wellFormed (step req st) := by
  cases req with
  | getIndex => exact h
  | getSurvey => exact h
  | getOverall => exact h
  | postSurvey f net =>
      exact survey_post_fst_closure f net st (fun a b => wellFormed a → wellFormed b)
        (fun _ hw => hw) (fun _ _ _ h1 h2 hw => h2 (h1 hw))
        (fun _ c l hw => wellFormed_incr c l hw) h

theorem wellFormed_init : wellFormed feedback_storage := by
  refine ⟨rfl, ?_⟩
  intro p hp
  have hp' : p = ("cleanliness", [("POSITIVE", 0), ("NEGATIVE", 0)]) ∨
      p = ("time", [("POSITIVE", 0), ("NEGATIVE", 0)]) ∨
      p = ("courtesy", [("POSITIVE", 0), ("NEGATIVE", 0)]) ∨
      p = ("food_quality", [("POSITIVE", 0), ("NEGATIVE", 0)]) := by
    simpa [feedback_storage] using hp
  rcases hp' with h | h | h | h <;> subst h <;> rfl

theorem reachable_wf {st : Store} (h : Reachable st) : wellFormed st := by
  induction h with
  | init => exact wellFormed_init
  | step req st' _ ih => exact wellFormed_step req ih

/-! ## Lookup existence in a well-formed store -/

theorem lookupA_isSome_of_mem_keys {α : Type} {st : List (String × α)} {c : String}
    (h : c ∈ st.map Prod.fst) : ∃ v, lookupA st c = some v := by
  induction st with
  | nil => simp at h
  | cons p rest ih =>
      obtain ⟨k, v⟩ := p
      by_cases hk : k = c
      · exact ⟨v, by simp [lookupA, hk]⟩
      · simp only [List.map_cons, List.mem_cons] at h
        rcases h with h | h
        · exact absurd h.symm hk
        · obtain ⟨v', hv⟩ := ih h
          exact ⟨v', by simp [lookupA, hk, hv]⟩

theorem lookupA_mem {α : Type} {st : List (String × α)} {c : String} {v : α}
    (h : lookupA st c = some v) : (c, v) ∈ st := by
  induction st with
  | nil => simp [lookupA] at h
  | cons p rest ih =>
      obtain ⟨k, w⟩ := p
      by_cases hk : k = c
      · subst hk
        have hw : w = v := by simpa [lookupA] using h
        subst hw
        exact List.mem_cons_self _ _
      · have h' : lookupA rest c = some v := by simpa [lookupA, hk] using h
        exact List.mem_cons_of_mem _ (ih h')

theorem wf_getCount_isSome {st : Store} (h : wellFormed st) {c l : String}
    (hc : c ∈ categories) (hl : l ∈ sentimentLabels) :
    ∃ n, getCount st c l = some n := by
  obtain ⟨hk, hin⟩ := h
  have hc' : c ∈ st.map Prod.fst := by rw [hk]; exact hc
  obtain ⟨m, hm⟩ := lookupA_isSome_of_mem_keys hc'
  have hkeys : m.map Prod.fst = sentimentLabels := hin (c, m) (lookupA_mem hm)
  have hl' : l ∈ m.map Prod.fst := by rw [hkeys]; exact hl
  obtain ⟨n, hn⟩ := lookupA_isSome_of_mem_keys hl'
  exact ⟨n, by simp [getCount, hm, hn]⟩

/-! ## Lemmas about the classifier adapter -/

theorem analyze_sentiment_response_isSome {net : String → PostOutcome} {text : String}
    {r : HttpResponse} (h : net text = PostOutcome.response r) :
    ∃ full, analyze_sentiment net text = some full := by
  unfold analyze_sentiment
  rw [h]
  rcases r with ⟨ok, body⟩
  cases ok
  · exact ⟨_, rfl⟩
  · cases body with
    | none => exact ⟨_, rfl⟩
    | some j => exact ⟨_, rfl⟩

theorem get_label_only_some {net : String → PostOutcome} {text full : String}
    (h : analyze_sentiment net text = some full) :
    get_label_only net text =
      some (if pyStartsWith full "POSITIVE" then "POSITIVE"
            else if pyStartsWith full "NEGATIVE" then "NEGATIVE" else "NEGATIVE") := by
  unfold get_label_only
  rw [h]
  rfl

/-! ## Rendering of the result page -/

/-- When the POST branch renders the result page, each reported label is the
one its field's processing block produced, threaded through the
intermediate stores. -/
theorem survey_post_labels {f : Form} {net : String → PostOutcome} {st : Store} {r : Rendered}
    (h : (survey_post f net st).2 = some r) :
    ∃ st1 st2 st3 st4,
      processField st "cleanliness" f.cleanliness net = (st1, some r.cleanliness_label) ∧
      processField st1 "time" f.time net = (st2, some r.time_label) ∧
      processField st2 "courtesy" f.courtesy net = (st3, some r.courtesy_label) ∧
      processField st3 "food_quality" f.food_quality net = (st4, some r.food_label) := by
  unfold survey_post at h
  rcases h1 : processField st "cleanliness" f.cleanliness net with ⟨st1, r1⟩
  rw [h1] at h
  cases r1 with
  | none => simp at h
  | some cl =>
    dsimp only at h
    rcases h2 : processField st1 "time" f.time net with ⟨st2, r2⟩
    rw [h2] at h
    cases r2 with
    | none => simp at h
    | some tl =>
      dsimp only at h
      rcases h3 : processField st2 "courtesy" f.courtesy net with ⟨st3, r3⟩
      rw [h3] at h
      cases r3 with
      | none => simp at h
      | some col =>
        dsimp only at h
        rcases h4 : processField st3 "food_quality" f.food_quality net with ⟨st4, r4⟩
        rw [h4] at h
        cases r4 with
        | none => simp at h
        | some fl =>
          dsimp only at h
          have hr : r = ⟨f.cleanliness, cl, f.time, tl, f.courtesy, col,
              f.food_quality, fl⟩ := (Option.some.inj h).symm
          subst hr
          exact ⟨st1, st2, st3, st4, rfl, h2, h3, h4⟩

/-! ## The claims -/

/-- C1: for every input text, the sentiment classifier adapter
(`get_label_only`) returns exactly one of the two labels POSITIVE or
NEGATIVE, for every outcome of the underlying remote call that yields a
response object — success, HTTP error status, or unexpected response
shape. -/
theorem get_label_only_binary (net : String → PostOutcome) (text : String)
    (r : HttpResponse) (h : net text = PostOutcome.response r) :
    get_label_only net text = some "POSITIVE" ∨
    get_label_only net text = some "NEGATIVE" := by
  obtain ⟨full, hf⟩ := analyze_sentiment_response_isSome h
  rw [get_label_only_some hf]
  cases h1 : pyStartsWith full "POSITIVE" <;> cases h2 : pyStartsWith full "NEGATIVE" <;>
    simp [h1, h2]

theorem get_label_only_binary_witness :
    ((fun _ : String => PostOutcome.response ⟨false, none⟩) "meh" =
      PostOutcome.response ⟨false, none⟩) ∧
    (get_label_only (fun _ : String => PostOutcome.response ⟨false, none⟩) "meh" =
        some "POSITIVE" ∨
      get_label_only (fun _ : String => PostOutcome.response ⟨false, none⟩) "meh" =
        some "NEGATIVE") :=
  ⟨rfl, get_label_only_binary (fun _ : String => PostOutcome.response ⟨false, none⟩) "meh"
    ⟨false, none⟩ rfl⟩

/-- C5 counterexample: a network failure raised by `requests.post` itself is
not caught — that call sits on the line before the `try` — so
`analyze_sentiment` propagates the exception instead of returning the
default string. -/
theorem analyze_sentiment_network_failure_propagates :
    analyze_sentiment (fun _ : String => PostOutcome.raises) "the coffee was cold" = none ∧
    analyze_sentiment (fun _ : String => PostOutcome.raises) "the coffee was cold" ≠
      some "Error analyzing sentiment" :=
  ⟨rfl, by decide⟩

/-- C5 amended: for every exceptional outcome arising inside the `try`
block — a non-2xx status (`raise_for_status`) or a non-JSON body
(`response.json()`) — `analyze_sentiment` does not propagate the exception
and returns the default string `"Error analyzing sentiment"`; a network
failure raised by `requests.post` itself propagates, since that call
precedes the `try`. -/
theorem analyze_sentiment_catches_response_errors (net : String → PostOutcome)
    (text : String) (r : HttpResponse) (hr : net text = PostOutcome.response r)
    (herr : r.ok = false ∨ r.body = none) :
    analyze_sentiment net text = some "Error analyzing sentiment" := by
  unfold analyze_sentiment
  rw [hr]
  rcases r with ⟨ok, body⟩
  rcases herr with h | h
  · have hok : ok = false := h
    subst hok
    rfl
  · have hbody : body = none := h
    subst hbody
    cases ok <;> rfl

theorem analyze_sentiment_catches_response_errors_witness :
    ((fun _ : String => PostOutcome.response ⟨true, none⟩) "x" =
      PostOutcome.response ⟨true, none⟩) ∧
    analyze_sentiment (fun _ : String => PostOutcome.response ⟨true, none⟩) "x" =
      some "Error analyzing sentiment" :=
  ⟨rfl, analyze_sentiment_catches_response_errors
    (fun _ : String => PostOutcome.response ⟨true, none⟩) "x" ⟨true, none⟩ rfl (Or.inr rfl)⟩

/-- C6: the home page serves a QR code linking to the feedback form: the
rendered image is `generate_qr_code_local` applied to the survey URL, whose
path is `/survey`; and for every input string, `generate_qr_code_local`
returns `"data:image/png;base64,"` followed by the base64 encoding of the
PNG bytes produced by the encoder. -/
theorem index_serves_qr_code :
    (∀ png : String → List Nat,
        (index png).qr_image = generate_qr_code_local png (index png).survey_url ∧
        (index png).survey_url = surveyUrl) ∧
    (∃ host, surveyUrl = "http://" ++ host ++ "/survey" ∧ host.data.contains '/' = false) ∧
    (∀ (png : String → List Nat) (text : String),
        generate_qr_code_local png text =
          "data:image/png;base64," ++ base64encode (png text)) := by
  refine ⟨fun png => ⟨rfl, rfl⟩, ⟨"10.10.4.21:5000", by decide, by decide⟩,
    fun png text => rfl⟩

/-- C9: classification failures are tallied as negative: whenever
`analyze_sentiment` returns a string that starts with neither POSITIVE nor
NEGATIVE (in particular `"Error analyzing sentiment"` and
`"Unexpected response format"`), `get_label_only` returns `"NEGATIVE"`, so
a non-empty submission whose classification failed increments that
category's NEGATIVE counter. -/
theorem failed_classification_tallied_negative :
    (pyStartsWith "Error analyzing sentiment" "POSITIVE" = false ∧
     pyStartsWith "Error analyzing sentiment" "NEGATIVE" = false ∧
     pyStartsWith "Unexpected response format" "POSITIVE" = false ∧
     pyStartsWith "Unexpected response format" "NEGATIVE" = false) ∧
    (∀ (net : String → PostOutcome) (text full : String),
        analyze_sentiment net text = some full →
        pyStartsWith full "POSITIVE" = false →
        pyStartsWith full "NEGATIVE" = false →
        get_label_only net text = some "NEGATIVE") ∧
    (∀ (st : Store) (cat text : String) (net : String → PostOutcome) (full : String) (n : Nat),
        hasFeedback text = true →
        analyze_sentiment net text = some full →
        pyStartsWith full "POSITIVE" = false →
        pyStartsWith full "NEGATIVE" = false →
        getCount st cat "NEGATIVE" = some n →
        getCount (processField st cat text net).1 cat "NEGATIVE" = some (n + 1)) := by
  have hlab : ∀ (net : String → PostOutcome) (text full : String),
      analyze_sentiment net text = some full →
      pyStartsWith full "POSITIVE" = false →
      pyStartsWith full "NEGATIVE" = false →
      get_label_only net text = some "NEGATIVE" := by
    intro net text full h h1 h2
    rw [get_label_only_some h, h1, h2]
    simp
  refine ⟨by decide, hlab, ?_⟩
  intro st cat text net full n htext h h1 h2 hn
  have he : processField st cat text net = (incr st cat "NEGATIVE", some "NEGATIVE") := by
    simp [processField, htext, hlab net text full h h1 h2]
  rw [he]
  show getCount (incr st cat "NEGATIVE") cat "NEGATIVE" = some (n + 1)
  rw [getCount_incr_self, hn]
  rfl

theorem failed_classification_tallied_negative_witness :
    hasFeedback "meh" = true ∧
    analyze_sentiment (fun _ : String => PostOutcome.response ⟨true, some JVal.jnull⟩) "meh" =
      some "Unexpected response format" ∧
    get_label_only (fun _ : String => PostOutcome.response ⟨true, some JVal.jnull⟩) "meh" =
      some "NEGATIVE" ∧
    getCount (processField feedback_storage "courtesy" "meh"
        (fun _ : String => PostOutcome.response ⟨true, some JVal.jnull⟩)).1
      "courtesy" "NEGATIVE" = some 1 :=
  ⟨by decide, by decide,
   failed_classification_tallied_negative.2.1
     (fun _ : String => PostOutcome.response ⟨true, some JVal.jnull⟩) "meh"
     "Unexpected response format" (by decide) (by decide) (by decide),
   failed_classification_tallied_negative.2.2 feedback_storage "courtesy" "meh"
     (fun _ : String => PostOutcome.response ⟨true, some JVal.jnull⟩)
     "Unexpected response format" 0 (by decide) (by decide) (by decide) (by decide) (by decide)⟩

/-- C10: read-only requests leave the store unchanged: handling `GET /`,
`GET /survey` or `GET /overall` leaves every counter of `feedback_storage`
exactly as it was before the request. -/
theorem get_requests_leave_store (st : Store) :
    step Request.getIndex st = st ∧ step Request.getSurvey st = st ∧
    step Request.getOverall st = st :=
  ⟨rfl, rfl, rfl⟩

/-- C2: in every state reachable by any sequence of requests, the result
store contains exactly the four categories cleanliness, time, courtesy and
food_quality, each mapping exactly the two labels POSITIVE and NEGATIVE to
a count; no operation adds another category or label key. -/
theorem store_shape_invariant (st : Store) (h : Reachable st) : wellFormed st :=
  reachable_wf h

theorem store_shape_invariant_witness : wellFormed feedback_storage :=
  store_shape_invariant feedback_storage Reachable.init

/-- C3: stored feedback is never mutated or deleted: under every operation
(GET or POST on any route), every per-category per-label counter of the
store is non-decreasing. -/
theorem counters_nondecreasing (req : Request) (st : Store) (c l : String) (n : Nat)
    (h : getCount st c l = some n) :
    ∃ m, getCount (step req st) c l = some m ∧ n ≤ m :=
  storeLe_step req st c l n h

theorem counters_nondecreasing_witness :
    getCount feedback_storage "cleanliness" "POSITIVE" = some 0 ∧
    ∃ m, getCount (step (Request.postSurvey ⟨"nice", "", "", ""⟩
        (fun _ : String => PostOutcome.raises)) feedback_storage)
      "cleanliness" "POSITIVE" = some m ∧ 0 ≤ m :=
  ⟨by decide,
   counters_nondecreasing
     (Request.postSurvey ⟨"nice", "", "", ""⟩ (fun _ : String => PostOutcome.raises))
     feedback_storage "cleanliness" "POSITIVE" 0 (by decide)⟩

/-- C4: recording one classified response mutates exactly one cell of the
store: when a category's text is non-empty (non-whitespace) and classified
with label `lab`, that field's processing increments the `(cat, lab)`
counter by exactly 1, leaves every other (category, label) counter
unchanged, and reports `lab` for the result page. -/
theorem classified_field_single_increment (st : Store) (cat text : String)
    (net : String → PostOutcome) (lab : String) (n : Nat)
    (htext : hasFeedback text = true)
    (hlab : get_label_only net text = some lab)
    (hn : getCount st cat lab = some n) :
    getCount (processField st cat text net).1 cat lab = some (n + 1) ∧
    (∀ c' l', ¬(c' = cat ∧ l' = lab) →
        getCount (processField st cat text net).1 c' l' = getCount st c' l') ∧
    (processField st cat text net).2 = some lab := by
  have he : processField st cat text net = (incr st cat lab, some lab) := by
    simp [processField, htext, hlab]
  rw [he]
  refine ⟨?_, ?_, rfl⟩
  · show getCount (incr st cat lab) cat lab = some (n + 1)
    rw [getCount_incr_self, hn]
    rfl
  · intro c' l' hne
    show getCount (incr st cat lab) c' l' = getCount st c' l'
    exact getCount_incr_ne st cat lab c' l' hne

theorem classified_field_single_increment_witness :
    hasFeedback "great service" = true ∧
    get_label_only (fun _ : String => PostOutcome.response
        ⟨true, some (JVal.jlist [JVal.jdict [("label", JVal.jstr "POSITIVE"),
          ("score", JVal.jnum 1)]])⟩) "great service" = some "POSITIVE" ∧
    getCount feedback_storage "time" "POSITIVE" = some 0 ∧
    getCount (processField feedback_storage "time" "great service"
        (fun _ : String => PostOutcome.response
          ⟨true, some (JVal.jlist [JVal.jdict [("label", JVal.jstr "POSITIVE"),
            ("score", JVal.jnum 1)]])⟩)).1 "time" "POSITIVE" = some 1 ∧
    getCount (processField feedback_storage "time" "great service"
        (fun _ : String => PostOutcome.response
          ⟨true, some (JVal.jlist [JVal.jdict [("label", JVal.jstr "POSITIVE"),
            ("score", JVal.jnum 1)]])⟩)).1 "cleanliness" "NEGATIVE" =
      getCount feedback_storage "cleanliness" "NEGATIVE" :=
  ⟨by decide, by decide, by decide,
   (classified_field_single_increment feedback_storage "time" "great service"
      (fun _ : String => PostOutcome.response
        ⟨true, some (JVal.jlist [JVal.jdict [("label", JVal.jstr "POSITIVE"),
          ("score", JVal.jnum 1)]])⟩) "POSITIVE" 0 (by decide) (by decide) (by decide)).1,
   (classified_field_single_increment feedback_storage "time" "great service"
      (fun _ : String => PostOutcome.response
        ⟨true, some (JVal.jlist [JVal.jdict [("label", JVal.jstr "POSITIVE"),
          ("score", JVal.jnum 1)]])⟩) "POSITIVE" 0 (by decide) (by decide)
      (by decide)).2.1 "cleanliness" "NEGATIVE" (by decide)⟩

/-- C7: the aggregate view groups results per category by label as counts:
in every reachable state, `GET /overall` renders exactly the current store,
and each of the four categories carries a POSITIVE and a NEGATIVE count
that the rendered data reports unmodified. -/
theorem overall_renders_current_counts (st : Store) (h : Reachable st) :
    (overall st).data = st ∧
    ∀ c ∈ categories, ∀ l ∈ sentimentLabels,
      ∃ n, getCount (overall st).data c l = some n ∧ getCount st c l = some n := by
  refine ⟨rfl, fun c hc l hl => ?_⟩
  obtain ⟨n, hn⟩ := wf_getCount_isSome (reachable_wf h) hc hl
  exact ⟨n, hn, hn⟩

theorem overall_renders_current_counts_witness :
    (overall feedback_storage).data = feedback_storage ∧
    ∃ n, getCount (overall feedback_storage).data "food_quality" "NEGATIVE" = some n ∧
      getCount feedback_storage "food_quality" "NEGATIVE" = some n :=
  ⟨(overall_renders_current_counts feedback_storage Reachable.init).1,
   (overall_renders_current_counts feedback_storage Reachable.init).2 "food_quality"
     (by decide) "NEGATIVE" (by decide)⟩

/-- C8: a POST field whose text is empty or all-whitespace is skipped
entirely: its block leaves the store untouched, makes no classifier call
(the block's result does not depend on the network at all), and the label
the result page reports for that category is `"No feedback"`. -/
theorem blank_field_skipped :
    (∀ (st : Store) (cat text : String) (net : String → PostOutcome),
        hasFeedback text = false →
        processField st cat text net = (st, some "No feedback")) ∧
    (∀ (st : Store) (cat text : String) (net net' : String → PostOutcome),
        hasFeedback text = false →
        processField st cat text net = processField st cat text net') ∧
    (∀ (f : Form) (net : String → PostOutcome) (st : Store) (r : Rendered),
        (survey_post f net st).2 = some r →
        (hasFeedback f.cleanliness = false → r.cleanliness_label = "No feedback") ∧
        (hasFeedback f.time = false → r.time_label = "No feedback") ∧
        (hasFeedback f.courtesy = false → r.courtesy_label = "No feedback") ∧
        (hasFeedback f.food_quality = false → r.food_label = "No feedback")) := by
  have hskip : ∀ (st : Store) (cat text : String) (net : String → PostOutcome),
      hasFeedback text = false → processField st cat text net = (st, some "No feedback") := by
    intro st cat text net h
    simp [processField, h]
  refine ⟨hskip, ?_, ?_⟩
  · intro st cat text net net' h
    rw [hskip st cat text net h, hskip st cat text net' h]
  · intro f net st r h
    obtain ⟨st1, st2, st3, st4, h1, h2, h3, h4⟩ := survey_post_labels h
    refine ⟨fun hb => ?_, fun hb => ?_, fun hb => ?_, fun hb => ?_⟩
    · rw [hskip st "cleanliness" f.cleanliness net hb] at h1
      exact (Option.some.inj (congrArg Prod.snd h1)).symm
    · rw [hskip st1 "time" f.time net hb] at h2
      exact (Option.some.inj (congrArg Prod.snd h2)).symm
    · rw [hskip st2 "courtesy" f.courtesy net hb] at h3
      exact (Option.some.inj (congrArg Prod.snd h3)).symm
    · rw [hskip st3 "food_quality" f.food_quality net hb] at h4
      exact (Option.some.inj (congrArg Prod.snd h4)).symm

theorem blank_field_skipped_witness :
    hasFeedback "   " = false ∧
    processField feedback_storage "cleanliness" "   "
      (fun _ : String => PostOutcome.raises) = (feedback_storage, some "No feedback") ∧
    (survey_post ⟨"   ", "", "", ""⟩ (fun _ : String => PostOutcome.raises)
        feedback_storage).2 =
      some ⟨"   ", "No feedback", "", "No feedback", "", "No feedback", "", "No feedback"⟩ ∧
    Rendered.cleanliness_label
      ⟨"   ", "No feedback", "", "No feedback", "", "No feedback", "", "No feedback"⟩ =
      "No feedback" :=
  ⟨by decide,
   blank_field_skipped.1 feedback_storage "cleanliness" "   "
     (fun _ : String => PostOutcome.raises) (by decide),
   rfl,
   (blank_field_skipped.2.2 ⟨"   ", "", "", ""⟩ (fun _ : String => PostOutcome.raises)
      feedback_storage
      ⟨"   ", "No feedback", "", "No feedback", "", "No feedback", "", "No feedback"⟩
      rfl).1 (by decide)⟩

end TimHortons
